import Mathlib

/-!
Shallow embedding of the Leaky Buckets interpreter (src/interpreter.py).

The interpreter executes an esoteric grid-world language: an actor on an
integer lattice carries buckets, fills and empties them, and water on the
ground or in holed buckets diffuses and decays each tick.  Python `dict`s
are embedded as association lists (insertion-ordered, unique keys by
construction of the operations), Python `int` as `Int` (floor division and
modulus by the positive constants 4 and 100 coincide with `Int.ediv` /
`Int.emod`), and in-place mutation as explicit state passing.  `_error`
(which prints and exits the process) is embedded as an `err` result that
carries the state at the moment of the error; the two spots where the
source would raise an uncaught Python `IndexError` (popping an empty
wellies stack) are embedded as an error of category "Python".  Error
message texts follow the source, with contractions expanded (the source's
"can't" and similar are written "cannot" / "could not" / "did not"). -/

namespace LeakyBuckets

/-- Position on the unbounded lattice, as in `type Pos = tuple[int, int]`. -/
abbrev Pos := Int × Int

/-- Cardinal direction, as in `type Direction`. -/
inductive Dir where
  | N | E | S | W
deriving DecidableEq, Repr

/-- The list `directions = ["N", "E", "S", "W"]`. -/
def directions : List Dir := [.N, .E, .S, .W]

/-- Index of a direction in `directions` (`directions.index(d)`). -/
def direction_index : Dir → Nat
  | .N => 0
  | .E => 1
  | .S => 2
  | .W => 3

/-- The direction `directions[k % 4]`; the source always indexes with a value
reduced mod 4. -/
def direction_of_index (k : Nat) : Dir :=
  match k % 4 with
  | 0 => .N
  | 1 => .E
  | 2 => .S
  | _ => .W

/-- Source `relative_direction_to_absolute`:
`directions[(directions.index(cur) + directions.index(rel)) % 4]`. -/
def relative_direction_to_absolute (current_dir relative_dir : Dir) : Dir :=
  direction_of_index (direction_index current_dir + direction_index relative_dir)

/-- Source `direction_to_relative_pos`: N ↦ (0,1), E ↦ (1,0), S ↦ (0,-1), W ↦ (-1,0). -/
def direction_to_relative_pos : Dir → Pos
  | .N => (0, 1)
  | .E => (1, 0)
  | .S => (0, -1)
  | .W => (-1, 0)

/-- Source `add_pos`. -/
def add_pos (pos1 pos2 : Pos) : Pos := (pos1.1 + pos2.1, pos1.2 + pos2.2)

/-- Source `mul_pos`. -/
def mul_pos (scalar : Int) (pos : Pos) : Pos := (scalar * pos.1, scalar * pos.2)

/-- Source `Bucket` dataclass: capacity and water in centipints, `holes` a
leak rate (always created from a nonnegative literal, hence `Nat`). -/
structure Bucket where
  capacity : Int
  holes : Nat := 0
  water : Int := 0
deriving DecidableEq, Repr

/-- Output mode strings "num", "void", "ascii", "ascii_in", "wellies_loop". -/
inductive Mode where
  | num | void | ascii | asciiIn | welliesLoop
deriving DecidableEq, Repr

/-- The relative turn word of a `turn ...` instruction. -/
inductive TurnDir where
  | left | right | around | allTheWayAround
deriving DecidableEq, Repr

/-- The instruction catalogue of `eval_line`, as an abstract syntax tree
(the text-to-shape regex matching itself is out of the embedding's scope;
shapes are mutually exclusive by leading keyword).  `godFill` carries the
external inputs the instruction would read: the integer from `input_int`
(any `Int` — Python `int(input())` accepts negatives) and the character
code from `input_char` (an `ord`, hence `Nat`); which one is consumed is
decided by the mode at evaluation time, as in the source.  `blank` stands
for a normalized empty line, which the driver skips without a tick. -/
inductive Instr where
  | collect (pints : Option Nat) (holes : Nat)
  | turn (t : TurnDir)
  | fillToTop
  | godFill (int_input : Int) (char_input : Nat)
  | fillWith (pints : Nat)
  | placeDown (rel : Dir)
  | pickUp (rel : Dir)
  | emptyOnto (rel : Dir) (without_overflow : Bool)
  | emptyHere
  | move (steps : Nat)
  | shrink
  | screamVoid
  | speakGod
  | hearGod
  | welliesReturned
  | putWelliesOn
  | takeWelliesOff
  | evaporate (pints : Nat)
  | blank
deriving DecidableEq, Repr

/-- A fatal error: the category string passed to `_error` (for example
"Runtime") and the message. -/
structure Err where
  type : String
  msg : String
deriving DecidableEq, Repr

/-- Result of dispatching one instruction: `Branch | int | None` in the
source (`branch` carries the skip count, `jump` the loop-back line index). -/
inductive Outcome where
  | normal
  | branch (n : Nat)
  | jump (target : Nat)
deriving DecidableEq, Repr

/-- Association-list lookup, embedding `d[k]` / `k in d` on a Python dict. -/
def dictGet {α : Type} : List (Pos × α) → Pos → Option α
  | [], _ => none
  | (k, v) :: rest, k2 => if k = k2 then some v else dictGet rest k2

/-- Association-list update `d[k] = v`: replaces the value in place if the
key is present, appends at the end otherwise (Python dict insertion order). -/
def dictSet {α : Type} : List (Pos × α) → Pos → α → List (Pos × α)
  | [], k2, v2 => [(k2, v2)]
  | (k, v) :: rest, k2, v2 =>
      if k = k2 then (k2, v2) :: rest else (k, v) :: dictSet rest k2 v2

/-- Association-list removal `del d[k]`. -/
def dictDel {α : Type} : List (Pos × α) → Pos → List (Pos × α)
  | [], _ => []
  | (k, v) :: rest, k2 => if k = k2 then rest else (k, v) :: dictDel rest k2

/-- The world state, the mutable fields of the source `Program` class.  The
wellies stack holds markers `(line index, position, direction)` with the
most recently pushed marker at the head of the list. -/
structure Program where
  buckets : List (Pos × Bucket)
  water : List (Pos × Int)
  pos : Pos
  direction : Dir
  depot_pos : Pos
  tap_pos : Pos
  pond_pos : Pos
  current_bucket : Option Bucket
  mode : Mode
  mode_changed : Bool
  wellies_count : Nat
  wellies_stack : List (Nat × Pos × Dir)
  time : Nat
  lines : List Instr
  line_counter : Nat
deriving DecidableEq, Repr

/-- The freshly initialised state of `Program.__init__`. -/
def Program.init (lines : List Instr) : Program where
  buckets := []
  water := []
  pos := (0, 0)
  direction := .N
  depot_pos := (0, 1)
  tap_pos := (1, 1)
  pond_pos := (-1, 1)
  current_bucket := none
  mode := .num
  mode_changed := false
  wellies_count := 0
  wellies_stack := []
  time := 0
  lines := lines
  line_counter := 0

/-- Result of `eval_line` / `run_line`: either a fatal error (carrying the
state at the moment `_error` fires) or the mutated state plus the outcome. -/
inductive EvalRes where
  | err (e : Err) (s : Program)
  | ok (s : Program) (out : Outcome)
deriving DecidableEq, Repr

/-- Source `Program.leak_water_onto`: add `water` centipints at `pos`,
inserting the key if absent (even when the amount is zero). -/
def leak_water_onto (w : List (Pos × Int)) (pos : Pos) (water : Int) :
    List (Pos × Int) :=
  match dictGet w pos with
  | some v => dictSet w pos (v + water)
  | none => dictSet w pos water

/-- Source `Program.pos_is_occupied`: a placed bucket or a landmark is there. -/
def pos_is_occupied (s : Program) (pos : Pos) : Bool :=
  (dictGet s.buckets pos).isSome || decide (pos = s.depot_pos) ||
    decide (pos = s.tap_pos) || decide (pos = s.pond_pos)

/-- The ground-decay loop at the top of `run_line`: every entry loses one
centipint (clamped at zero) and entries that reach zero are deleted. -/
def decay_water (w : List (Pos × Int)) : List (Pos × Int) :=
  w.filterMap fun pv =>
    let v := max 0 (pv.2 - 1)
    if v = 0 then none else some (pv.1, v)

/-- One placed bucket's leak in `run_line`: skip holeless buckets, decrement
the water by `holes` (clamped at zero), then deposit
`min(holes, new water) % 4` on the neighbour in the tick-rotating direction
`directions[time % 4]` and `min(holes, new water) // 4` on each of the four
neighbours. -/
def leak_bucket (time : Nat) (pos : Pos) (b : Bucket)
    (w : List (Pos × Int)) : Bucket × List (Pos × Int) :=
  if b.holes = 0 then (b, w)
  else
    let water2 := max 0 (b.water - b.holes)
    let lost := min (b.holes : Int) water2
    let even_water := lost / 4
    let w1 := leak_water_onto w
      (add_pos pos (direction_to_relative_pos (direction_of_index time)))
      (lost % 4)
    let w2 := directions.foldl
      (fun acc d => leak_water_onto acc (add_pos pos (direction_to_relative_pos d))
        even_water) w1
    ({ b with water := water2 }, w2)

/-- The `for pos, bucket in self.buckets.items()` leak loop of `run_line`,
threading the ground-water map through every bucket in insertion order. -/
def buckets_leak (time : Nat) :
    List (Pos × Bucket) → List (Pos × Int) → List (Pos × Bucket) × List (Pos × Int)
  | [], w => ([], w)
  | (p, b) :: rest, w =>
    let bw := leak_bucket time p b w
    let rw := buckets_leak time rest bw.2
    ((p, bw.1) :: rw.1, rw.2)

/-- The held-bucket leak at the end of the diffusion phase of `run_line`:
a held holed bucket decrements its water the same way and deposits the full
`min(holes, new water)` onto the actor's own position. -/
def held_leak (s : Program) : Program :=
  match s.current_bucket with
  | some b =>
    if b.holes ≠ 0 then
      let water2 := max 0 (b.water - b.holes)
      { s with
        current_bucket := some { b with water := water2 }
        water := leak_water_onto s.water s.pos (min (b.holes : Int) water2) }
    else s
  | none => s

/-- The diffusion phase of `run_line` (everything before `eval_line` is
dispatched): reset the mode-changed flag, decay the ground water, leak every
placed bucket (threading the decayed map through), then leak the held bucket. -/
def pre_tick (s : Program) : Program :=
  held_leak
    { s with
      mode_changed := false
      buckets := (buckets_leak s.time s.buckets (decay_water s.water)).1
      water := (buckets_leak s.time s.buckets (decay_water s.water)).2 }

/-- The relative direction of a turn word, the `match match[1]` of the turn
case: left ↦ W, right ↦ E, around ↦ S, all the way around ↦ N. -/
def turn_rel_dir : TurnDir → Dir
  | .left => .W
  | .right => .E
  | .around => .S
  | .allTheWayAround => .N

/-- Source `Program.eval_line`: dispatch one instruction against the state.
Each case mirrors the corresponding regex branch, preserving the order of
precondition checks and mutations.  `line_num` is the 1-based line number
the driver passes (`line_counter + 1`). -/
def eval_line (s : Program) (i : Instr) (line_num : Nat) : EvalRes :=
  match i with
  | .collect pints holes =>
    if add_pos s.pos (direction_to_relative_pos s.direction) ≠ s.depot_pos then
      .err ⟨"Runtime", "must be facing bucket depot in order to collect a bucket"⟩ s
    else if s.current_bucket.isSome then
      .err ⟨"Runtime", "cannot collect a bucket; already holding one"⟩ s
    else
      let capacity : Int := match pints with
        | none => 100 * (2 ^ 32 - 1)
        | some n => 100 * n
      .ok { s with current_bucket := some ⟨capacity, holes, 0⟩ } .normal
  | .turn t =>
    if s.current_bucket.isSome then
      .err ⟨"Runtime", "cannot turn around while holding a bucket"⟩ s
    else
      match dictGet s.water s.pos with
      | some w =>
        if 100 ≤ w then
          let n : Int := w / 100
          if s.mode = .welliesLoop then
            if s.wellies_count = 0 then
              .err ⟨"", "fell over with no wellies on"⟩ s
            else
              match s.wellies_stack with
              | [] => .err ⟨"Python", "IndexError: pop from empty list"⟩ s
              | loop_start :: rest =>
                .ok { s with pos := loop_start.2.1, direction := loop_start.2.2,
                             wellies_stack := rest } (.jump loop_start.1)
          else
            if (s.wellies_count : Int) < n then
              .err ⟨"Runtime", "fell over and did not have enough wellies on"⟩ s
            else
              .ok s (.branch n.toNat)
        else
          .ok { s with direction :=
            relative_direction_to_absolute s.direction (turn_rel_dir t) } .normal
      | none =>
        .ok { s with direction :=
          relative_direction_to_absolute s.direction (turn_rel_dir t) } .normal
  | .fillToTop =>
    if add_pos s.pos (direction_to_relative_pos s.direction) ≠ s.tap_pos then
      .err ⟨"Runtime", "must be facing the tap in order to fill a bucket"⟩ s
    else
      match s.current_bucket with
      | none => .err ⟨"Runtime", "must be holding a bucket in order to fill it"⟩ s
      | some b =>
        .ok { s with current_bucket := some { b with water := b.capacity } } .normal
  | .godFill int_input char_input =>
    match s.current_bucket with
    | none => .err ⟨"Runtime", "must be holding a bucket in order to fill it"⟩ s
    | some b =>
      let new_water : Int :=
        if s.mode = .asciiIn then 100 * char_input else 100 * int_input
      if b.capacity < b.water + new_water then
        .err ⟨"Runtime", "exceeded capacity of bucket when filling"⟩ s
      else
        .ok { s with current_bucket := some { b with water := b.water + new_water } }
          .normal
  | .fillWith pints =>
    if add_pos s.pos (direction_to_relative_pos s.direction) ≠ s.tap_pos then
      .err ⟨"Runtime", "must be facing the tap in order to fill a bucket"⟩ s
    else
      match s.current_bucket with
      | none => .err ⟨"Runtime", "must be holding a bucket in order to fill it"⟩ s
      | some b =>
        let water : Int := 100 * pints
        if b.capacity < b.water + water then
          .err ⟨"Runtime", "exceeded capacity of bucket when filling"⟩ s
        else
          .ok { s with current_bucket := some { b with water := b.water + water } }
            .normal
  | .placeDown rel =>
    match s.current_bucket with
    | none => .err ⟨"Runtime", "must be holding a bucket in order to put it down"⟩ s
    | some b =>
      let bucket_pos := add_pos s.pos
        (direction_to_relative_pos (relative_direction_to_absolute s.direction rel))
      if pos_is_occupied s bucket_pos then
        .err ⟨"Runtime", "cannot place a bucket in an occupied position"⟩ s
      else
        .ok { s with buckets := dictSet s.buckets bucket_pos b,
                     current_bucket := none } .normal
  | .pickUp rel =>
    if s.current_bucket.isSome then
      .err ⟨"Runtime", "must not be holding a bucket in order to pick one up"⟩ s
    else
      let bucket_pos := add_pos s.pos
        (direction_to_relative_pos (relative_direction_to_absolute s.direction rel))
      match dictGet s.buckets bucket_pos with
      | none =>
        .err ⟨"Runtime", "cannot pick up a bucket from an unoccupied position"⟩ s
      | some b =>
        .ok { s with current_bucket := some b,
                     buckets := dictDel s.buckets bucket_pos } .normal
  | .emptyOnto rel without_overflow =>
    match s.current_bucket with
    | none => .err ⟨"Runtime", "must be holding a bucket in order to empty it"⟩ s
    | some held =>
      let empty_pos := add_pos s.pos
        (direction_to_relative_pos (relative_direction_to_absolute s.direction rel))
      match dictGet s.buckets empty_pos with
      | some other =>
        let remaining_capacity := other.capacity - other.water
        if held.water < remaining_capacity then
          .ok { s with
            buckets := dictSet s.buckets empty_pos
              { other with water := other.water + held.water }
            current_bucket := some { held with water := 0 } } .normal
        else if without_overflow then
          .ok { s with
            buckets := dictSet s.buckets empty_pos
              { other with water := other.capacity }
            current_bucket :=
              some { held with water := held.water - remaining_capacity } } .normal
        else
          let overflowed := held.water - remaining_capacity
          let even_water := overflowed / 4
          let w1 := directions.foldl
            (fun acc d =>
              leak_water_onto acc (add_pos empty_pos (direction_to_relative_pos d))
                even_water) s.water
          let w2 := leak_water_onto w1
            (add_pos s.pos (direction_to_relative_pos (direction_of_index s.time)))
            even_water
          .ok { s with
            buckets := dictSet s.buckets empty_pos
              { other with water := other.capacity }
            water := w2
            current_bucket := some { held with water := 0 } } .normal
      | none =>
        if empty_pos = s.pond_pos then
          if without_overflow then
            .err ⟨"Runtime",
              "it is not a valid instruction to empty into the pond without overflow"⟩ s
          else
            match s.mode with
            | .ascii =>
              if held.water % 100 = 0 then
                if held.water / 100 < 128 then
                  .ok { s with current_bucket := some { held with water := 0 } } .normal
                else
                  .err ⟨"Runtime",
                    "could not print as ascii bucket for which water level was > 127"⟩ s
              else
                .err ⟨"Runtime",
                  "could not print as ascii bucket for which water level was not an integer"⟩
                  s
            | _ =>
              .ok { s with current_bucket := some { held with water := 0 } } .normal
        else
          if without_overflow then
            .err ⟨"Runtime",
              "it is not a valid instruction to empty onto the floor without overflow"⟩ s
          else
            let w := match dictGet s.water empty_pos with
              | some v => dictSet s.water empty_pos (v + held.water)
              | none => dictSet s.water empty_pos held.water
            .ok { s with water := w,
                         current_bucket := some { held with water := 0 } } .normal
  | .emptyHere =>
    match s.current_bucket with
    | none => .err ⟨"Runtime", "must be holding a bucket in order to empty it"⟩ s
    | some held =>
      let w := match dictGet s.water s.pos with
        | some v => dictSet s.water s.pos (v + held.water)
        | none => dictSet s.water s.pos held.water
      .ok { s with water := w,
                   current_bucket := some { held with water := 0 } } .normal
  | .move steps =>
    let step := direction_to_relative_pos s.direction
    let route := (List.range steps).map fun k => add_pos s.pos (mul_pos (k + 1) step)
    if route.any (pos_is_occupied s) then
      .err ⟨"Runtime", "tripped over an occupied position :("⟩ s
    else
      .ok { s with pos := add_pos s.pos (mul_pos steps step) } .normal
  | .shrink =>
    match s.current_bucket with
    | none => .err ⟨"Runtime", "must be holding a bucket in order to shrink it"⟩ s
    | some b =>
      .ok { s with current_bucket := some { b with capacity := b.water } } .normal
  | .screamVoid =>
    .ok { s with mode := .void, mode_changed := true } .normal
  | .speakGod =>
    .ok { s with mode := .ascii, mode_changed := true } .normal
  | .hearGod =>
    .ok { s with mode := .asciiIn, mode_changed := true } .normal
  | .welliesReturned =>
    .ok { s with mode := .welliesLoop, mode_changed := true } .normal
  | .putWelliesOn =>
    .ok { s with wellies_count := s.wellies_count + 1,
                 wellies_stack := (line_num - 1, s.pos, s.direction) :: s.wellies_stack }
      .normal
  | .takeWelliesOff =>
    if s.wellies_count = 0 then
      .err ⟨"Runtime", "cannot take off wellies when you have no wellies on"⟩ s
    else
      match s.wellies_stack with
      | [] => .err ⟨"Python", "IndexError: pop from empty list"⟩ s
      | _ :: rest =>
        .ok { s with wellies_count := s.wellies_count - 1,
                     wellies_stack := rest } .normal
  | .evaporate pints =>
    match dictGet s.water s.pos with
    | some v =>
      .ok { s with water := dictSet s.water s.pos (max 0 (v - 100 * pints)) } .normal
    | none => .ok s .normal
  | .blank =>
    .err ⟨"", "unknown instruction"⟩ s

/-- Source `Program.run_line`: one tick — diffusion, then dispatch, then
the sticky-mode reset and the time increment (skipped if the dispatch
errors, as `_error` exits the process). -/
def run_line (s : Program) (line : Instr) (line_num : Nat) : EvalRes :=
  match eval_line (pre_tick s) line line_num with
  | .err e s2 => .err e s2
  | .ok s2 out =>
    let s3 := if s2.mode_changed then s2 else { s2 with mode := .num }
    .ok { s3 with time := s3.time + 1 } out

/-- One step of the driver. -/
inductive StepRes where
  | done (s : Program)
  | fatal (e : Err) (s : Program)
  | cont (s : Program) (branch_countdown : Nat)
deriving DecidableEq, Repr

/-- One iteration of the `while` loop of `Program.run_iter` (plus the loop
exit): skip a blank line; while the branch countdown is positive skip the
line, decrementing the countdown only on a `take wellies off` line;
otherwise dispatch the line through `run_line` and interpret its outcome
(branch sets the countdown, a jump target replaces the cursor, normal
advances it).  Running off the end with a positive countdown is fatal. -/
def run_iter_step (s : Program) (branch_countdown : Nat) : StepRes :=
  match s.lines[s.line_counter]? with
  | none =>
    if 0 < branch_countdown then
      .fatal ⟨"", "terminated without finding correct branch to take off wellies"⟩ s
    else .done s
  | some line =>
    if line = .blank then
      .cont { s with line_counter := s.line_counter + 1 } branch_countdown
    else if 0 < branch_countdown then
      .cont { s with line_counter := s.line_counter + 1 }
        (if line = .takeWelliesOff then branch_countdown - 1 else branch_countdown)
    else
      match run_line s line (s.line_counter + 1) with
      | .err e s2 => .fatal e s2
      | .ok s2 (.branch n) => .cont { s2 with line_counter := s2.line_counter + 1 } n
      | .ok s2 (.jump target) => .cont { s2 with line_counter := target } branch_countdown
      | .ok s2 .normal => .cont { s2 with line_counter := s2.line_counter + 1 } branch_countdown

/-- The bucket-water invariant of the spec: `0 ≤ water ≤ capacity`. -/
def bucket_inv (b : Bucket) : Bool :=
  decide (0 ≤ b.water) && decide (b.water ≤ b.capacity)

/-- The invariant for every bucket of the state, placed or held. -/
def buckets_inv (s : Program) : Bool :=
  (s.buckets.all fun pb => bucket_inv pb.2) &&
    (match s.current_bucket with
     | none => true
     | some b => bucket_inv b)

/-- The wellies invariant of the spec: the count equals the stack depth. -/
def wellies_inv (s : Program) : Bool :=
  s.wellies_count = s.wellies_stack.length

/-- An instruction's external integer input is nonnegative (vacuous for
every instruction other than `godFill`; character codes are `Nat` already). -/
def god_input_ok : Instr → Bool
  | .godFill int_input _ => decide (0 ≤ int_input)
  | _ => true

/-- The four mode-setting instructions. -/
def is_mode_instr : Instr → Bool
  | .screamVoid | .speakGod | .hearGod | .welliesReturned => true
  | _ => false

/-- Total water held in a ground-water map. -/
def water_total (w : List (Pos × Int)) : Int :=
  w.foldr (fun pv acc => pv.2 + acc) 0

/-! Helper lemmas about the association-list operations. -/

theorem mem_dictSet {α : Type} {m : List (Pos × α)} {k : Pos} {v : α}
    {pb : Pos × α} (h : pb ∈ dictSet m k v) : pb = (k, v) ∨ pb ∈ m := by
  induction m with
  | nil =>
    simp only [dictSet, List.mem_singleton] at h
    exact Or.inl h
  | cons hd tl ih =>
    obtain ⟨k0, v0⟩ := hd
    simp only [dictSet] at h
    split at h
    · rcases List.mem_cons.mp h with h1 | h1
      · exact Or.inl h1
      · exact Or.inr (List.mem_cons_of_mem _ h1)
    · rcases List.mem_cons.mp h with h1 | h1
      · exact Or.inr (h1 ▸ List.mem_cons_self _ _)
      · rcases ih h1 with h2 | h2
        · exact Or.inl h2
        · exact Or.inr (List.mem_cons_of_mem _ h2)

theorem mem_dictDel {α : Type} {m : List (Pos × α)} {k : Pos}
    {pb : Pos × α} (h : pb ∈ dictDel m k) : pb ∈ m := by
  induction m with
  | nil => simp [dictDel] at h
  | cons hd tl ih =>
    obtain ⟨k0, v0⟩ := hd
    simp only [dictDel] at h
    split at h
    · exact List.mem_cons_of_mem _ h
    · rcases List.mem_cons.mp h with h1 | h1
      · exact h1 ▸ List.mem_cons_self _ _
      · exact List.mem_cons_of_mem _ (ih h1)

theorem dictGet_mem {α : Type} {m : List (Pos × α)} {k : Pos} {v : α}
    (h : dictGet m k = some v) : (k, v) ∈ m := by
  induction m with
  | nil => simp [dictGet] at h
  | cons hd tl ih =>
    obtain ⟨k0, v0⟩ := hd
    simp only [dictGet] at h
    split at h
    · rename_i heq
      cases h
      exact heq ▸ List.mem_cons_self _ _
    · exact List.mem_cons_of_mem _ (ih h)

theorem water_total_dictSet_some {m : List (Pos × Int)} {k : Pos} {old x : Int}
    (h : dictGet m k = some old) :
    water_total (dictSet m k x) = water_total m - old + x := by
  induction m with
  | nil => simp [dictGet] at h
  | cons hd tl ih =>
    obtain ⟨k0, v0⟩ := hd
    simp only [dictGet] at h
    simp only [dictSet]
    split
    · rename_i heq
      rw [if_pos heq] at h
      simp only [Option.some.injEq] at h
      subst h
      simp [water_total]
      ring
    · rename_i hne
      rw [if_neg hne] at h
      simp only [water_total, List.foldr] at *
      rw [ih h]
      ring

theorem water_total_dictSet_none {m : List (Pos × Int)} {k : Pos} {x : Int}
    (h : dictGet m k = none) :
    water_total (dictSet m k x) = water_total m + x := by
  induction m with
  | nil => simp [dictSet, water_total]
  | cons hd tl ih =>
    obtain ⟨k0, v0⟩ := hd
    simp only [dictGet] at h
    split at h
    · cases h
    · rename_i hne
      simp only [dictSet, if_neg hne]
      simp only [water_total, List.foldr] at *
      rw [ih h]
      ring

theorem water_total_leak (m : List (Pos × Int)) (p : Pos) (v : Int) :
    water_total (leak_water_onto m p v) = water_total m + v := by
  unfold leak_water_onto
  cases h : dictGet m p with
  | none => exact water_total_dictSet_none h
  | some old =>
    rw [water_total_dictSet_some h]
    ring

theorem mem_leak_water_onto {m : List (Pos × Int)} {p : Pos} {v : Int}
    {pv : Pos × Int} (h : pv ∈ leak_water_onto m p v) : pv.1 = p ∨ pv ∈ m := by
  unfold leak_water_onto at h
  cases hg : dictGet m p with
  | none =>
    rw [hg] at h
    rcases mem_dictSet h with h1 | h1
    · exact Or.inl (by rw [h1])
    · exact Or.inr h1
  | some old =>
    rw [hg] at h
    rcases mem_dictSet h with h1 | h1
    · exact Or.inl (by rw [h1])
    · exact Or.inr h1

/-! Facts about the invariants and the diffusion phase. -/

theorem bucket_inv_iff {b : Bucket} :
    bucket_inv b = true ↔ 0 ≤ b.water ∧ b.water ≤ b.capacity := by
  simp [bucket_inv]

theorem buckets_inv_iff {s : Program} :
    buckets_inv s = true ↔
      (∀ pb ∈ s.buckets, bucket_inv pb.2 = true) ∧
        (∀ b, s.current_bucket = some b → bucket_inv b = true) := by
  cases h : s.current_bucket <;> simp [buckets_inv, List.all_eq_true, h]

theorem bucket_inv_leak_bucket {t : Nat} {p : Pos} {b : Bucket}
    {w : List (Pos × Int)} (h : bucket_inv b = true) :
    bucket_inv (leak_bucket t p b w).1 = true := by
  unfold leak_bucket
  split
  · exact h
  · simp only [bucket_inv, Bool.and_eq_true, decide_eq_true_eq] at h ⊢
    omega

theorem buckets_leak_inv {t : Nat} :
    ∀ {l : List (Pos × Bucket)} {w : List (Pos × Int)},
      (∀ pb ∈ l, bucket_inv pb.2 = true) →
      ∀ pb ∈ (buckets_leak t l w).1, bucket_inv pb.2 = true := by
  intro l
  induction l with
  | nil =>
    intro w h pb hm
    simp [buckets_leak] at hm
  | cons hd tl ih =>
    intro w h pb hm
    obtain ⟨p, b⟩ := hd
    simp only [buckets_leak] at hm
    rcases List.mem_cons.mp hm with h1 | h1
    · rw [h1]
      exact bucket_inv_leak_bucket (h (p, b) (List.mem_cons_self _ _))
    · exact ih (fun pb2 hm2 => h pb2 (List.mem_cons_of_mem _ hm2)) pb h1

theorem held_leak_frame (s : Program) :
    (held_leak s).pos = s.pos ∧ (held_leak s).direction = s.direction ∧
    (held_leak s).mode = s.mode ∧ (held_leak s).mode_changed = s.mode_changed ∧
    (held_leak s).wellies_count = s.wellies_count ∧
    (held_leak s).wellies_stack = s.wellies_stack ∧
    (held_leak s).time = s.time ∧ (held_leak s).lines = s.lines ∧
    (held_leak s).line_counter = s.line_counter ∧
    (held_leak s).depot_pos = s.depot_pos ∧ (held_leak s).tap_pos = s.tap_pos ∧
    (held_leak s).pond_pos = s.pond_pos ∧ (held_leak s).buckets = s.buckets := by
  unfold held_leak
  cases s.current_bucket with
  | none => exact ⟨rfl, rfl, rfl, rfl, rfl, rfl, rfl, rfl, rfl, rfl, rfl, rfl, rfl⟩
  | some b =>
    dsimp only
    split <;> exact ⟨rfl, rfl, rfl, rfl, rfl, rfl, rfl, rfl, rfl, rfl, rfl, rfl, rfl⟩

theorem pre_tick_frame (s : Program) :
    (pre_tick s).pos = s.pos ∧ (pre_tick s).direction = s.direction ∧
    (pre_tick s).mode = s.mode ∧ (pre_tick s).mode_changed = false ∧
    (pre_tick s).wellies_count = s.wellies_count ∧
    (pre_tick s).wellies_stack = s.wellies_stack ∧
    (pre_tick s).time = s.time ∧ (pre_tick s).lines = s.lines ∧
    (pre_tick s).line_counter = s.line_counter ∧
    (pre_tick s).depot_pos = s.depot_pos ∧ (pre_tick s).tap_pos = s.tap_pos ∧
    (pre_tick s).pond_pos = s.pond_pos := by
  obtain ⟨a, b, c, d, e, f, g, h, i, j, k, l, m⟩ := held_leak_frame
    { s with
      mode_changed := false
      buckets := (buckets_leak s.time s.buckets (decay_water s.water)).1
      water := (buckets_leak s.time s.buckets (decay_water s.water)).2 }
  exact ⟨a, b, c, d, e, f, g, h, i, j, k, l⟩

theorem held_leak_buckets_inv {s : Program} (h : buckets_inv s = true) :
    buckets_inv (held_leak s) = true := by
  rw [buckets_inv_iff] at h ⊢
  obtain ⟨h1, h2⟩ := h
  unfold held_leak
  cases hc : s.current_bucket with
  | none =>
    dsimp only
    refine ⟨h1, fun b hb => ?_⟩
    rw [hc] at hb
    cases hb
  | some b =>
    dsimp only
    split
    · refine ⟨h1, fun b2 hb2 => ?_⟩
      simp only [Option.some.injEq] at hb2
      have hb := h2 b hc
      rw [bucket_inv_iff] at hb ⊢
      rw [← hb2]
      dsimp only
      omega
    · exact ⟨h1, fun b2 hb2 => h2 b2 hb2⟩

theorem pre_tick_buckets_inv {s : Program} (h : buckets_inv s = true) :
    buckets_inv (pre_tick s) = true := by
  rw [buckets_inv_iff] at h
  obtain ⟨h1, h2⟩ := h
  unfold pre_tick
  apply held_leak_buckets_inv
  rw [buckets_inv_iff]
  exact ⟨fun pb hm => buckets_leak_inv h1 pb hm, fun b hb => h2 b hb⟩

theorem eval_line_mode_changed {s : Program} {i : Instr} {ln : Nat}
    {s2 : Program} {out : Outcome} (hm : is_mode_instr i = false)
    (h : eval_line s i ln = .ok s2 out) : s2.mode_changed = s.mode_changed := by
  cases i <;> first
    | exact absurd hm (by decide)
    | (simp only [eval_line] at h
       repeat' split at h
       all_goals cases h <;> rfl)

theorem eval_line_buckets_inv {s : Program} {i : Instr} {ln : Nat}
    {s2 : Program} {out : Outcome} (hs : buckets_inv s = true)
    (hg : god_input_ok i = true) (h : eval_line s i ln = .ok s2 out) :
    buckets_inv s2 = true := by
  have hs2 := hs
  rw [buckets_inv_iff] at hs2
  obtain ⟨h1, h2⟩ := hs2
  cases i
  case collect pints holes =>
    simp only [eval_line] at h
    repeat' split at h
    all_goals cases h
    all_goals
      (rw [buckets_inv_iff]
       refine ⟨h1, fun b hb => ?_⟩
       simp only [Option.some.injEq] at hb
       rw [← hb, bucket_inv_iff]
       dsimp only
       constructor <;> norm_num)
  case fillToTop =>
    simp only [eval_line] at h
    split at h
    · cases h
    · cases hc : s.current_bucket with
      | none => simp only [hc] at h; cases h
      | some b =>
        simp only [hc] at h
        cases h
        have hb := h2 b hc
        rw [bucket_inv_iff] at hb
        rw [buckets_inv_iff]
        refine ⟨h1, fun b2 hb2 => ?_⟩
        simp only [Option.some.injEq] at hb2
        rw [← hb2, bucket_inv_iff]
        dsimp only
        omega
  case godFill g c =>
    simp only [god_input_ok, decide_eq_true_eq] at hg
    simp only [eval_line] at h
    cases hc : s.current_bucket with
    | none => simp only [hc] at h; cases h
    | some b =>
      simp only [hc] at h
      have hb := h2 b hc
      rw [bucket_inv_iff] at hb
      rcases Decidable.em (s.mode = .asciiIn) with hmode | hmode
      · simp only [if_pos hmode] at h
        split at h
        · cases h
        · cases h
          rw [buckets_inv_iff]
          refine ⟨h1, fun b2 hb2 => ?_⟩
          simp only [Option.some.injEq] at hb2
          rw [← hb2, bucket_inv_iff]
          dsimp only
          omega
      · simp only [if_neg hmode] at h
        split at h
        · cases h
        · cases h
          rw [buckets_inv_iff]
          refine ⟨h1, fun b2 hb2 => ?_⟩
          simp only [Option.some.injEq] at hb2
          rw [← hb2, bucket_inv_iff]
          dsimp only
          omega
  case fillWith n =>
    simp only [eval_line] at h
    split at h
    · cases h
    · cases hc : s.current_bucket with
      | none => simp only [hc] at h; cases h
      | some b =>
        simp only [hc] at h
        have hb := h2 b hc
        rw [bucket_inv_iff] at hb
        split at h
        · cases h
        · cases h
          rw [buckets_inv_iff]
          refine ⟨h1, fun b2 hb2 => ?_⟩
          simp only [Option.some.injEq] at hb2
          rw [← hb2, bucket_inv_iff]
          dsimp only
          omega
  case placeDown rel =>
    simp only [eval_line] at h
    cases hc : s.current_bucket with
    | none => simp only [hc] at h; cases h
    | some b =>
      simp only [hc] at h
      split at h
      · cases h
      · cases h
        rw [buckets_inv_iff]
        constructor
        · intro pb hm
          rcases mem_dictSet hm with he | he
          · rw [he]
            exact h2 b hc
          · exact h1 pb he
        · intro b2 hb2
          cases hb2
  case pickUp rel =>
    simp only [eval_line] at h
    split at h
    · cases h
    · cases hcg : dictGet s.buckets
        (add_pos s.pos (direction_to_relative_pos
          (relative_direction_to_absolute s.direction rel))) with
      | none => simp only [hcg] at h; cases h
      | some b =>
        simp only [hcg] at h
        cases h
        rw [buckets_inv_iff]
        constructor
        · intro pb hm
          exact h1 pb (mem_dictDel hm)
        · intro b2 hb2
          simp only [Option.some.injEq] at hb2
          rw [← hb2]
          exact h1 (_, b) (dictGet_mem hcg)
  case emptyOnto rel wo =>
    simp only [eval_line] at h
    cases hc : s.current_bucket with
    | none => simp only [hc] at h; cases h
    | some held =>
      simp only [hc] at h
      have hheld := h2 held hc
      rw [bucket_inv_iff] at hheld
      cases hcg : dictGet s.buckets
          (add_pos s.pos (direction_to_relative_pos
            (relative_direction_to_absolute s.direction rel))) with
      | some other =>
        simp only [hcg] at h
        have hother := h1 (_, other) (dictGet_mem hcg)
        rw [bucket_inv_iff] at hother
        dsimp only at hother
        split at h
        · cases h
          rw [buckets_inv_iff]
          constructor
          · intro pb hm
            rcases mem_dictSet hm with he | he
            · rw [he, bucket_inv_iff]
              dsimp only
              omega
            · exact h1 pb he
          · intro b2 hb2
            simp only [Option.some.injEq] at hb2
            rw [← hb2, bucket_inv_iff]
            dsimp only
            omega
        · split at h
          · cases h
            rw [buckets_inv_iff]
            constructor
            · intro pb hm
              rcases mem_dictSet hm with he | he
              · rw [he, bucket_inv_iff]
                dsimp only
                omega
              · exact h1 pb he
            · intro b2 hb2
              simp only [Option.some.injEq] at hb2
              rw [← hb2, bucket_inv_iff]
              dsimp only
              omega
          · cases h
            rw [buckets_inv_iff]
            constructor
            · intro pb hm
              rcases mem_dictSet hm with he | he
              · rw [he, bucket_inv_iff]
                dsimp only
                omega
              · exact h1 pb he
            · intro b2 hb2
              simp only [Option.some.injEq] at hb2
              rw [← hb2, bucket_inv_iff]
              dsimp only
              omega
      | none =>
        simp only [hcg] at h
        repeat' split at h
        all_goals cases h
        all_goals
          (rw [buckets_inv_iff]
           refine ⟨h1, fun b2 hb2 => ?_⟩
           simp only [Option.some.injEq] at hb2
           rw [← hb2, bucket_inv_iff]
           dsimp only
           omega)
  case emptyHere =>
    simp only [eval_line] at h
    cases hc : s.current_bucket with
    | none => simp only [hc] at h; cases h
    | some held =>
      simp only [hc] at h
      have hheld := h2 held hc
      rw [bucket_inv_iff] at hheld
      cases h
      rw [buckets_inv_iff]
      refine ⟨h1, fun b2 hb2 => ?_⟩
      simp only [Option.some.injEq] at hb2
      rw [← hb2, bucket_inv_iff]
      dsimp only
      omega
  case shrink =>
    simp only [eval_line] at h
    cases hc : s.current_bucket with
    | none => simp only [hc] at h; cases h
    | some b =>
      simp only [hc] at h
      cases h
      have hb := h2 b hc
      rw [bucket_inv_iff] at hb
      rw [buckets_inv_iff]
      refine ⟨h1, fun b2 hb2 => ?_⟩
      simp only [Option.some.injEq] at hb2
      rw [← hb2, bucket_inv_iff]
      dsimp only
      omega
  all_goals
    (simp only [eval_line] at h
     repeat' split at h
     all_goals cases h <;> exact hs)

theorem eval_line_lines {s : Program} {i : Instr} {ln : Nat}
    {s2 : Program} {out : Outcome} (h : eval_line s i ln = .ok s2 out) :
    s2.lines = s.lines ∧ s2.line_counter = s.line_counter := by
  cases i <;>
    (simp only [eval_line] at h
     repeat' split at h
     all_goals cases h <;> exact ⟨rfl, rfl⟩)

theorem run_line_eq {s : Program} {i : Instr} {ln : Nat} {s3 : Program}
    {out : Outcome} (he : eval_line (pre_tick s) i ln = .ok s3 out) :
    run_line s i ln =
      .ok { (if s3.mode_changed then s3 else { s3 with mode := .num }) with
            time := (if s3.mode_changed then s3
                     else { s3 with mode := .num }).time + 1 } out := by
  unfold run_line
  rw [he]

theorem run_line_buckets_inv {s : Program} {i : Instr} {ln : Nat}
    {s2 : Program} {out : Outcome} (hs : buckets_inv s = true)
    (hg : god_input_ok i = true) (h : run_line s i ln = .ok s2 out) :
    buckets_inv s2 = true := by
  unfold run_line at h
  cases he : eval_line (pre_tick s) i ln with
  | err e s3 => rw [he] at h; cases h
  | ok s3 out3 =>
    rw [he] at h
    have h3 := eval_line_buckets_inv (pre_tick_buckets_inv hs) hg he
    cases h
    split <;> exact h3

theorem run_line_mode_num {s : Program} {i : Instr} {ln : Nat}
    {s2 : Program} {out : Outcome} (hm : is_mode_instr i = false)
    (h : run_line s i ln = .ok s2 out) : s2.mode = .num := by
  unfold run_line at h
  cases he : eval_line (pre_tick s) i ln with
  | err e s3 => rw [he] at h; cases h
  | ok s3 out3 =>
    rw [he] at h
    have hmc : s3.mode_changed = false := by
      rw [eval_line_mode_changed hm he]
      exact (pre_tick_frame s).2.2.2.1
    cases h
    have hnc : ¬(s3.mode_changed = true) := by
      rw [hmc]
      exact Bool.false_ne_true
    rw [if_neg hnc]

theorem run_line_lines {s : Program} {i : Instr} {ln : Nat}
    {s2 : Program} {out : Outcome} (h : run_line s i ln = .ok s2 out) :
    s2.lines = s.lines ∧ s2.line_counter = s.line_counter := by
  unfold run_line at h
  cases he : eval_line (pre_tick s) i ln with
  | err e s3 => rw [he] at h; cases h
  | ok s3 out3 =>
    rw [he] at h
    obtain ⟨hl, hc⟩ := eval_line_lines he
    obtain ⟨_, _, _, _, _, _, _, hl2, hc2, _⟩ := pre_tick_frame s
    cases h
    constructor
    · show (if s3.mode_changed then s3 else { s3 with mode := Mode.num }).lines = _
      split <;> rw [hl, hl2]
    · show (if s3.mode_changed then s3 else { s3 with mode := Mode.num }).line_counter = _
      split <;> rw [hc, hc2]

/-! Facts about the dispatch of single instruction shapes. -/

theorem eval_line_turn_branch {s : Program} {t : TurnDir} {ln : Nat} {w : Int}
    (hw : dictGet s.water s.pos = some w) (hw100 : 100 ≤ w)
    (hheld : s.current_bucket = none) (hmode : s.mode ≠ .welliesLoop)
    (hn : w / 100 ≤ (s.wellies_count : Int)) :
    eval_line s (.turn t) ln = .ok s (.branch (w / 100).toNat) := by
  simp only [eval_line, hheld, Option.isSome_none, Bool.false_eq_true, if_false, hw]
  rw [if_pos hw100, if_neg hmode, if_neg (not_lt.mpr hn)]

theorem eval_line_turn_loop {s : Program} {t : TurnDir} {ln : Nat} {w : Int}
    {m : Nat × Pos × Dir} {rest : List (Nat × Pos × Dir)}
    (hw : dictGet s.water s.pos = some w) (hw100 : 100 ≤ w)
    (hheld : s.current_bucket = none) (hmode : s.mode = .welliesLoop)
    (hwc : s.wellies_count ≠ 0) (hstack : s.wellies_stack = m :: rest) :
    eval_line s (.turn t) ln =
      .ok { s with pos := m.2.1, direction := m.2.2, wellies_stack := rest }
        (.jump m.1) := by
  simp only [eval_line, hheld, Option.isSome_none, Bool.false_eq_true, if_false, hw]
  rw [if_pos hw100, if_pos hmode, if_neg hwc, hstack]

theorem eval_line_putWelliesOn (s : Program) (ln : Nat) :
    eval_line s .putWelliesOn ln =
      .ok { s with wellies_count := s.wellies_count + 1,
                   wellies_stack := (ln - 1, s.pos, s.direction) :: s.wellies_stack }
        .normal := rfl

/-! Facts about single driver steps. -/

theorem run_iter_step_dispatch {s : Program} {l : Instr}
    (hl : s.lines[s.line_counter]? = some l) (hb : l ≠ .blank) :
    run_iter_step s 0 =
      (match run_line s l (s.line_counter + 1) with
       | .err e s2 => .fatal e s2
       | .ok s2 (.branch n) => .cont { s2 with line_counter := s2.line_counter + 1 } n
       | .ok s2 (.jump target) => .cont { s2 with line_counter := target } 0
       | .ok s2 .normal => .cont { s2 with line_counter := s2.line_counter + 1 } 0) := by
  unfold run_iter_step
  rw [hl]
  dsimp only
  rw [if_neg hb, if_neg (lt_irrefl 0)]

theorem run_iter_step_normal {s : Program} {l : Instr} {s2 : Program}
    (hl : s.lines[s.line_counter]? = some l) (hb : l ≠ .blank)
    (hr : run_line s l (s.line_counter + 1) = .ok s2 .normal) :
    run_iter_step s 0 = .cont { s2 with line_counter := s2.line_counter + 1 } 0 := by
  rw [run_iter_step_dispatch hl hb, hr]

theorem run_iter_step_branch {s : Program} {l : Instr} {s2 : Program} {n : Nat}
    (hl : s.lines[s.line_counter]? = some l) (hb : l ≠ .blank)
    (hr : run_line s l (s.line_counter + 1) = .ok s2 (.branch n)) :
    run_iter_step s 0 = .cont { s2 with line_counter := s2.line_counter + 1 } n := by
  rw [run_iter_step_dispatch hl hb, hr]

theorem run_iter_step_jump {s : Program} {l : Instr} {s2 : Program} {target : Nat}
    (hl : s.lines[s.line_counter]? = some l) (hb : l ≠ .blank)
    (hr : run_line s l (s.line_counter + 1) = .ok s2 (.jump target)) :
    run_iter_step s 0 = .cont { s2 with line_counter := target } 0 := by
  rw [run_iter_step_dispatch hl hb, hr]

theorem run_iter_step_skip_take {s : Program} {cd : Nat} (hcd : 0 < cd)
    (hl : s.lines[s.line_counter]? = some .takeWelliesOff) :
    run_iter_step s cd = .cont { s with line_counter := s.line_counter + 1 } (cd - 1) := by
  unfold run_iter_step
  rw [hl]
  dsimp only
  rw [if_neg (by decide : ¬(Instr.takeWelliesOff = Instr.blank)), if_pos hcd, if_pos rfl]

theorem run_iter_step_skip_other {s : Program} {cd : Nat} {l : Instr}
    (hcd : 0 < cd) (hl : s.lines[s.line_counter]? = some l)
    (h1 : l ≠ .takeWelliesOff) (h2 : l ≠ .blank) :
    run_iter_step s cd = .cont { s with line_counter := s.line_counter + 1 } cd := by
  unfold run_iter_step
  rw [hl]
  dsimp only
  rw [if_neg h2, if_pos hcd, if_neg h1]

theorem dir_mem_neighbours (p : Pos) (d : Dir) :
    add_pos p (direction_to_relative_pos d) ∈
      directions.map fun d2 => add_pos p (direction_to_relative_pos d2) :=
  List.mem_map_of_mem _ (by cases d <;> decide)

/-- C3 (amended): a placed bucket with `holes = h` and `water = w` where
`w ≥ 2h` loses exactly `h` centipints of its own water in one diffusion
step and deposits exactly `h` centipints in total, all of it on the four
cardinal neighbours of its position (the four even splits plus the
remainder sum to `h`).  For `h ≤ w < 2h` the code deposits only
`min(h, w - h)` because the leaked amount is computed against the water
level after the decrement. -/
theorem c3_leak_conservation (time : Nat) (p : Pos) (cap w : Int) (h : Nat)
    (w0 : List (Pos × Int)) (hw : 2 * (h : Int) ≤ w) :
    (leak_bucket time p ⟨cap, h, w⟩ w0).1 = ⟨cap, h, w - h⟩ ∧
    water_total (leak_bucket time p ⟨cap, h, w⟩ w0).2 = water_total w0 + h ∧
    ∀ pv ∈ (leak_bucket time p ⟨cap, h, w⟩ w0).2,
      pv ∈ w0 ∨ pv.1 ∈ directions.map fun d => add_pos p (direction_to_relative_pos d) := by
  unfold leak_bucket
  by_cases h0 : h = 0
  · subst h0
    rw [if_pos rfl]
    refine ⟨by simp, by simp [Int.natCast_zero], fun pv hm => Or.inl hm⟩
  · rw [if_neg (by simpa using h0)]
    dsimp only
    have hmax : max 0 (w - (h : Int)) = w - h := by omega
    have hmin : min ((h : Nat) : Int) (w - (h : Int)) = h := by omega
    rw [hmax, hmin]
    refine ⟨rfl, ?_, ?_⟩
    · simp only [directions, List.foldl, water_total_leak]
      omega
    · intro pv hm
      simp only [directions, List.foldl] at hm
      rcases mem_leak_water_onto hm with he | hm
      · exact Or.inr (by rw [he]; exact dir_mem_neighbours p _)
      rcases mem_leak_water_onto hm with he | hm
      · exact Or.inr (by rw [he]; exact dir_mem_neighbours p _)
      rcases mem_leak_water_onto hm with he | hm
      · exact Or.inr (by rw [he]; exact dir_mem_neighbours p _)
      rcases mem_leak_water_onto hm with he | hm
      · exact Or.inr (by rw [he]; exact dir_mem_neighbours p _)
      rcases mem_leak_water_onto hm with he | hm
      · exact Or.inr (by rw [he]; exact dir_mem_neighbours p _)
      · exact Or.inl hm

theorem run_line_putWelliesOn (s : Program) (ln : Nat) :
    run_line s .putWelliesOn ln =
      .ok { pre_tick s with
            wellies_count := (pre_tick s).wellies_count + 1
            wellies_stack := (ln - 1, (pre_tick s).pos, (pre_tick s).direction) ::
              (pre_tick s).wellies_stack
            mode := .num
            time := (pre_tick s).time + 1 } .normal := by
  rw [run_line_eq (eval_line_putWelliesOn (pre_tick s) ln)]
  have hmc : ({ pre_tick s with
      wellies_count := (pre_tick s).wellies_count + 1
      wellies_stack := (ln - 1, (pre_tick s).pos, (pre_tick s).direction) ::
        (pre_tick s).wellies_stack } : Program).mode_changed = false :=
    (pre_tick_frame s).2.2.2.1
  rw [if_neg (by rw [hmc]; exact Bool.false_ne_true)]

/-! The ten claims. -/

/-- C1 (amended): provided the external integer read by "let god fill the
bucket as he wishes" is nonnegative, `0 ≤ water ≤ capacity` holds for every
bucket, held or placed, after every successfully dispatched instruction;
and a filling instruction whose effect would exceed the bucket's capacity
fails the tick with a Runtime error instead of committing the mutation
(stated for "let god fill the bucket as he wishes" and "fill the bucket
with N pints of water"; the error result carries the unmutated state).
The nonnegativity proviso is forced: the code checks only the upper bound,
so a negative god-read drives water below 0 (see the counterexample). -/
theorem c1_bucket_water_invariant :
    (∀ (s : Program) (i : Instr) (ln : Nat) (s2 : Program) (out : Outcome),
        buckets_inv s = true → god_input_ok i = true →
        run_line s i ln = .ok s2 out → buckets_inv s2 = true) ∧
    (∀ (s : Program) (b : Bucket) (g : Int) (c : Nat) (ln : Nat),
        s.current_bucket = some b →
        b.capacity < b.water + (if s.mode = .asciiIn then 100 * (c : Int) else 100 * g) →
        eval_line s (.godFill g c) ln =
          .err ⟨"Runtime", "exceeded capacity of bucket when filling"⟩ s) ∧
    (∀ (s : Program) (b : Bucket) (n : Nat) (ln : Nat),
        s.current_bucket = some b →
        add_pos s.pos (direction_to_relative_pos s.direction) = s.tap_pos →
        b.capacity < b.water + 100 * (n : Int) →
        eval_line s (.fillWith n) ln =
          .err ⟨"Runtime", "exceeded capacity of bucket when filling"⟩ s) := by
  refine ⟨fun s i ln s2 out hs hg h => run_line_buckets_inv hs hg h, ?_, ?_⟩
  · intro s b g c ln hc hcap
    simp only [eval_line, hc]
    rw [if_pos hcap]
  · intro s b n ln hc htap hcap
    simp only [eval_line, hc]
    rw [if_neg (fun hne => hne htap), if_pos hcap]

/-- Witness state: the result of one `put wellies on` tick from the initial
state. -/
def c1w_after : Program :=
  { Program.init [] with
    wellies_count := 1, wellies_stack := [(0, (0, 0), .N)], time := 1 }

/-- Witness state: holding an empty 1-pint bucket. -/
def c1w_god : Program :=
  { Program.init [] with current_bucket := some ⟨100, 0, 0⟩ }

/-- Witness state: holding an empty 1-pint bucket while facing the tap. -/
def c1w_tap : Program :=
  { Program.init [] with pos := (1, 0), current_bucket := some ⟨100, 0, 0⟩ }

theorem c1_bucket_water_invariant_witness :
    buckets_inv c1w_after = true ∧
    eval_line c1w_god (.godFill 7 0) 1 =
      .err ⟨"Runtime", "exceeded capacity of bucket when filling"⟩ c1w_god ∧
    eval_line c1w_tap (.fillWith 2) 1 =
      .err ⟨"Runtime", "exceeded capacity of bucket when filling"⟩ c1w_tap :=
  ⟨c1_bucket_water_invariant.1 (Program.init []) .putWelliesOn 1 c1w_after .normal
      (by decide) (by decide) (by decide),
   c1_bucket_water_invariant.2.1 c1w_god ⟨100, 0, 0⟩ 7 0 1 (by decide) (by decide),
   c1_bucket_water_invariant.2.2 c1w_tap ⟨100, 0, 0⟩ 2 1 (by decide) (by decide)
      (by decide)⟩

/-- Counterexample state: holding a 100-pint bucket with no water. -/
def c1x_before : Program :=
  { Program.init [] with current_bucket := some ⟨10000, 0, 0⟩ }

/-- Counterexample state: the same bucket holding negative water. -/
def c1x_after : Program :=
  { Program.init [] with current_bucket := some ⟨10000, 0, -100⟩, time := 1 }

/-- C1 as stated is false: "let god fill the bucket as he wishes" with the
external integer -1 commits water = -100 into a bucket satisfying the
invariant, instead of failing the tick, so `0 ≤ water` is broken after a
successfully dispatched instruction. -/
theorem c1_negative_god_fill_counterexample :
    buckets_inv c1x_before = true ∧
    run_line c1x_before (.godFill (-1) 0) 1 = .ok c1x_after .normal ∧
    buckets_inv c1x_after = false := by decide

/-- Failing state for C2: wellies-loop mode, one pair of wellies, one marker,
standing on 101 centipints (100 after decay). -/
def c2_before : Program :=
  { Program.init [.turn .left] with
    mode := .welliesLoop, water := [((0, 0), 101)],
    wellies_count := 1, wellies_stack := [(0, (5, 5), .E)] }

/-- The state after the C2 fall-over tick: the marker stack was popped but
the wellies count was not decremented. -/
def c2_after : Program :=
  { Program.init [.turn .left] with
    water := [((0, 0), 100)], pos := (5, 5),
    direction := .E, wellies_count := 1, wellies_stack := [], time := 1 }

/-- C2 fails on the code: a wellies-loop fall-over pops the marker stack
without decrementing `wellies_count`, so after the tick the count (1) is no
longer the length of the stack (0). -/
theorem c2_wellies_count_stack_mismatch :
    wellies_inv c2_before = true ∧
    run_line c2_before (.turn .left) 1 = .ok c2_after (.jump 0) ∧
    c2_after.wellies_count = 1 ∧ c2_after.wellies_stack = [] ∧
    wellies_inv c2_after = false := by decide

/-- Counterexample state for C3: a single placed bucket with 3 holes and
4 centipints of water (so `w ≥ h` but `w < 2h`). -/
def c3x_before : Program :=
  { Program.init [] with buckets := [((0, 0), ⟨100, 3, 4⟩)] }

/-- C3 as stated is false: a placed bucket with `holes = 3`, `water = 4`
(`w ≥ h`) does lose 3 centipints in one diffusion step, but only
`min(3, 4 - 3) = 1` centipint is deposited on its neighbours, not 3,
because the deposited amount is computed against the already decremented
water level. -/
theorem c3_under_twice_holes_counterexample :
    (pre_tick c3x_before).buckets = [((0, 0), ⟨100, 3, 1⟩)] ∧
    water_total (pre_tick c3x_before).water = 1 ∧
    ((1 : Int) = 3) = False := by decide

theorem c3_leak_conservation_witness :
    (leak_bucket 0 (0, 0) ⟨100, 3, 11⟩ []).1 = ⟨100, 3, 8⟩ ∧
    water_total (leak_bucket 0 (0, 0) ⟨100, 3, 11⟩ []).2 = water_total [] + 3 := by
  have h := c3_leak_conservation 0 (0, 0) 100 11 3 [] (by decide)
  exact ⟨h.1, h.2.1⟩

/-- Failing state for C4: actor at the origin facing north holds a bucket
with 3 centipints; the target square ahead holds a full bucket (landmarks
moved away so they do not interfere). -/
def c4_before : Program :=
  { Program.init [] with
    depot_pos := (10, 10), tap_pos := (11, 10), pond_pos := (9, 10)
    buckets := [((0, 1), ⟨100, 0, 100⟩)]
    current_bucket := some ⟨100, 0, 3⟩ }

/-- The state after the C4 overflow: all five deposits are
`floor(3 / 4) = 0`, so the 3 overflowed centipints vanish. -/
def c4_after : Program :=
  { c4_before with
    water := [((0, 2), 0), ((1, 1), 0), ((0, 0), 0), ((-1, 1), 0), ((0, 1), 0)]
    current_bucket := some ⟨100, 0, 0⟩ }

/-- C4 fails on the code: emptying 3 centipints onto a full bucket without
"without overflow" deposits `floor(overflow / 4)` — not `overflow mod 4` —
at the actor's tick-rotating neighbour, so with overflow 3 every deposit is
0 and the whole overflow vanishes instead of being fully distributed. -/
theorem c4_overflow_vanishes :
    eval_line c4_before (.emptyOnto .N false) 1 = .ok c4_after .normal ∧
    dictGet c4_after.buckets (0, 1) = some ⟨100, 0, 100⟩ ∧
    c4_after.current_bucket = some ⟨100, 0, 0⟩ ∧
    water_total c4_after.water = 0 ∧
    ((0 : Int) = 3) = False := by decide

/-- C5: standing on `w ≥ 100` centipints with `n = w / 100`, not holding a
bucket, not in wellies-loop mode and `n ≤ wellies_count`, any turn
instruction returns a branch signal carrying exactly `n` and leaves the
state untouched; the driver, on a branch result, sets the countdown to `n`
and advances; while the countdown is positive a `take wellies off` line is
skipped, decrementing only the countdown, any other non-blank line is
skipped leaving the countdown alone, and once the countdown is 0 a
non-blank line is dispatched normally again. -/
theorem c5_branch_determinism :
    (∀ (s : Program) (t : TurnDir) (ln : Nat) (w : Int) (n : Nat),
        dictGet s.water s.pos = some w → 100 ≤ w → n = (w / 100).toNat →
        s.current_bucket = none → s.mode ≠ .welliesLoop →
        w / 100 ≤ (s.wellies_count : Int) →
        eval_line s (.turn t) ln = .ok s (.branch n)) ∧
    (∀ (s : Program) (l : Instr) (s2 : Program) (n : Nat),
        s.lines[s.line_counter]? = some l → l ≠ .blank →
        run_line s l (s.line_counter + 1) = .ok s2 (.branch n) →
        run_iter_step s 0 = .cont { s2 with line_counter := s2.line_counter + 1 } n) ∧
    (∀ (s : Program) (cd : Nat), 0 < cd →
        s.lines[s.line_counter]? = some .takeWelliesOff →
        run_iter_step s cd = .cont { s with line_counter := s.line_counter + 1 } (cd - 1)) ∧
    (∀ (s : Program) (cd : Nat) (l : Instr), 0 < cd →
        s.lines[s.line_counter]? = some l → l ≠ .takeWelliesOff → l ≠ .blank →
        run_iter_step s cd = .cont { s with line_counter := s.line_counter + 1 } cd) ∧
    (∀ (s : Program) (l : Instr) (s2 : Program),
        s.lines[s.line_counter]? = some l → l ≠ .blank →
        run_line s l (s.line_counter + 1) = .ok s2 .normal →
        run_iter_step s 0 = .cont { s2 with line_counter := s2.line_counter + 1 } 0) := by
  refine ⟨?_, ?_, ?_, ?_, ?_⟩
  · intro s t ln w n hw h100 hn hheld hmode hwc
    rw [hn]
    exact eval_line_turn_branch hw h100 hheld hmode hwc
  · intro s l s2 n hl hb hr
    exact run_iter_step_branch hl hb hr
  · intro s cd hcd hl
    exact run_iter_step_skip_take hcd hl
  · intro s cd l hcd hl h1 h2
    exact run_iter_step_skip_other hcd hl h1 h2
  · intro s l s2 hl hb hr
    exact run_iter_step_normal hl hb hr

/-- Witness state for C5: standing on 250 centipints wearing two wellies. -/
def c5w_a : Program :=
  { Program.init [] with water := [((0, 0), 250)], wellies_count := 2 }

/-- Witness program for C5: a turn line followed by two close-wellies lines. -/
def c5w_b : Program :=
  { Program.init [.turn .left, .takeWelliesOff, .takeWelliesOff] with
    water := [((0, 0), 201)], wellies_count := 2 }

/-- The C5 witness state after the branch tick. -/
def c5w_b2 : Program :=
  { Program.init [.turn .left, .takeWelliesOff, .takeWelliesOff] with
    water := [((0, 0), 200)], wellies_count := 2, time := 1 }

/-- Witness program for C5: a single close-wellies line to skip. -/
def c5w_c : Program := Program.init [.takeWelliesOff]

/-- Witness program for C5: a single open-wellies line. -/
def c5w_d : Program := Program.init [.putWelliesOn]

/-- The C5 witness state after the open-wellies tick. -/
def c5w_d2 : Program :=
  { Program.init [.putWelliesOn] with
    wellies_count := 1, wellies_stack := [(0, (0, 0), .N)], time := 1 }

theorem c5_branch_determinism_witness :
    eval_line c5w_a (.turn .right) 1 = .ok c5w_a (.branch 2) ∧
    run_iter_step c5w_b 0 = .cont { c5w_b2 with line_counter := 1 } 2 ∧
    run_iter_step c5w_c 2 = .cont { c5w_c with line_counter := 1 } 1 ∧
    run_iter_step c5w_d 1 = .cont { c5w_d with line_counter := 1 } 1 ∧
    run_iter_step c5w_d 0 = .cont { c5w_d2 with line_counter := 1 } 0 :=
  ⟨c5_branch_determinism.1 c5w_a .right 1 250 2 (by decide) (by decide) (by decide)
      (by decide) (by decide) (by decide),
   c5_branch_determinism.2.1 c5w_b (.turn .left) c5w_b2 2 (by decide) (by decide)
      (by decide),
   c5_branch_determinism.2.2.1 c5w_c 2 (by decide) (by decide),
   c5_branch_determinism.2.2.2.1 c5w_d 1 .putWelliesOn (by decide) (by decide)
      (by decide) (by decide),
   c5_branch_determinism.2.2.2.2 c5w_d .putWelliesOn c5w_d2 (by decide) (by decide)
      (by decide)⟩

/-- C6: falling over (ground water at the actor at least 100 centipints, no
held bucket) in wellies-loop mode with a positive wellies count and top
marker `m` pops that marker, restores the position and facing to exactly
the marker's stored values, and returns a jump to the marker's stored line
index; the driver, on a jump result, sets the line cursor to exactly that
target. -/
theorem c6_loopback_determinism :
    (∀ (s : Program) (t : TurnDir) (ln : Nat) (w : Int) (m : Nat × Pos × Dir)
        (rest : List (Nat × Pos × Dir)),
        dictGet s.water s.pos = some w → 100 ≤ w → s.current_bucket = none →
        s.mode = .welliesLoop → s.wellies_count ≠ 0 → s.wellies_stack = m :: rest →
        eval_line s (.turn t) ln =
          .ok { s with pos := m.2.1, direction := m.2.2, wellies_stack := rest }
            (.jump m.1)) ∧
    (∀ (s : Program) (l : Instr) (s2 : Program) (target : Nat),
        s.lines[s.line_counter]? = some l → l ≠ .blank →
        run_line s l (s.line_counter + 1) = .ok s2 (.jump target) →
        run_iter_step s 0 = .cont { s2 with line_counter := target } 0) :=
  ⟨fun _ _ _ _ _ _ hw h100 hh hm hwc hs => eval_line_turn_loop hw h100 hh hm hwc hs,
   fun _ _ _ _ hl hb hr => run_iter_step_jump hl hb hr⟩

/-- Witness state for C6: in wellies-loop mode at line 1 of a two-line
program, on 150 centipints, with the marker (0, (2,3), S) on the stack. -/
def c6w : Program :=
  { Program.init [.putWelliesOn, .turn .left] with
    mode := .welliesLoop, water := [((0, 0), 150)], wellies_count := 1,
    wellies_stack := [(0, (2, 3), .S)], line_counter := 1 }

/-- The C6 witness state after the fall-over tick dispatched by the driver. -/
def c6w_after : Program :=
  { Program.init [.putWelliesOn, .turn .left] with
    water := [((0, 0), 149)], pos := (2, 3), direction := .S,
    wellies_count := 1, wellies_stack := [], time := 1, line_counter := 1 }

theorem c6_loopback_determinism_witness :
    eval_line c6w (.turn .left) 2 =
      .ok { c6w with pos := (2, 3), direction := .S, wellies_stack := [] }
        (.jump 0) ∧
    run_iter_step c6w 0 = .cont { c6w_after with line_counter := 0 } 0 :=
  ⟨c6_loopback_determinism.1 c6w .left 2 150 (0, (2, 3), .S) [] (by decide)
      (by decide) (by decide) (by decide) (by decide) (by decide),
   c6_loopback_determinism.2 c6w (.turn .left) c6w_after 0 (by decide) (by decide)
      (by decide)⟩

/-- C7 (amended): zero-valued ground-water entries can exist at the end of a
tick (created by zero-amount leak deposits and by "evaporate" clamping an
entry to 0 without deleting it), but the ground-decay sweep at the start of
every tick removes every such entry: every entry surviving decay is
strictly positive, so no zero entry survives into the next tick's dispatch. -/
theorem c7_decay_removes_zero_entries (w : List (Pos × Int)) (pv : Pos × Int)
    (h : pv ∈ decay_water w) : 0 < pv.2 := by
  unfold decay_water at h
  rcases List.mem_filterMap.mp h with ⟨a, _, ha⟩
  dsimp only at ha
  split at ha
  · cases ha
  · rename_i hzero
    cases ha
    omega

theorem c7_decay_removes_zero_entries_witness :
    0 < (((0, 0) : Pos), (1 : Int)).2 :=
  c7_decay_removes_zero_entries [((0, 0), 2)] ((0, 0), 1) (by decide)

/-- Counterexample state for C7: 300 centipints at the origin. -/
def c7x_before : Program :=
  { Program.init [] with water := [((0, 0), 300)] }

/-- The state after the C7 evaporate tick: a zero-valued entry remains. -/
def c7x_after : Program :=
  { Program.init [] with water := [((0, 0), 0)], time := 1 }

/-- C7 as stated is false: "evaporate 3 pints" on 299 centipints (300 after
the tick's decay) clamps the entry to 0 but leaves it in the map, so right
after the dispatched instruction the ground-water map holds a zero-valued
entry. -/
theorem c7_evaporate_zero_entry_counterexample :
    run_line c7x_before (.evaporate 3) 1 = .ok c7x_after .normal ∧
    dictGet c7x_after.water (0, 0) = some 0 := by decide

/-- C8: dispatching "move N steps" when some tile of the route ahead is
occupied by a placed bucket or a landmark fails with a Runtime error whose
carried state is exactly the input state — the position (and everything
else) is unchanged, so no partial movement ever occurs. -/
theorem c8_move_blocked_atomic (s : Program) (n : Nat) (ln : Nat)
    (h : ((List.range n).map fun k =>
        add_pos s.pos (mul_pos (k + 1) (direction_to_relative_pos s.direction))).any
        (pos_is_occupied s) = true) :
    eval_line s (.move n) ln =
      .err ⟨"Runtime", "tripped over an occupied position :("⟩ s := by
  simp only [eval_line]
  rw [if_pos h]

theorem c8_move_blocked_atomic_witness :
    eval_line (Program.init []) (.move 2) 1 =
      .err ⟨"Runtime", "tripped over an occupied position :("⟩ (Program.init []) :=
  c8_move_blocked_atomic (Program.init []) 2 1 (by decide)

/-- C9: any successfully dispatched tick whose instruction is not one of the
four mode-setting instructions ends with the output mode equal to numeric:
`run_line` resets the mode-changed flag, no other instruction sets it, and
the tick epilogue resets the mode to "num" whenever the flag is still
clear. -/
theorem c9_mode_resets_to_numeric (s : Program) (i : Instr) (ln : Nat)
    (s2 : Program) (out : Outcome) (hm : is_mode_instr i = false)
    (h : run_line s i ln = .ok s2 out) : s2.mode = .num :=
  run_line_mode_num hm h

/-- Witness state for C9: the mode is "ascii" from the previous tick. -/
def c9w : Program := { Program.init [] with mode := .ascii }

/-- The C9 witness state after one non-mode tick: the mode is numeric again. -/
def c9w_after : Program :=
  { Program.init [] with
    wellies_count := 1, wellies_stack := [(0, (0, 0), .N)], time := 1 }

theorem c9_mode_resets_to_numeric_witness : c9w_after.mode = .num :=
  c9_mode_resets_to_numeric c9w .putWelliesOn 1 c9w_after .normal (by decide)
    (by decide)

/-- C10: the marker pushed by "put wellies on" stores the index of that line
itself: when the driver dispatches a "put wellies on" at cursor `i`, the
continuation state has `(i, pos, facing)` pushed on the stack, the count
incremented and the cursor at `i + 1`; a wellies-loop fall-over returns a
jump to the top marker's stored line while restoring its position and
facing, and the driver then sets the cursor to exactly that stored line
with the line list unchanged — so the next dispatched line is the same
"put wellies on", which pushes a fresh marker recording the restored
position and facing and increments the count again on every iteration. -/
theorem c10_marker_stores_own_line :
    (∀ (s s2 : Program) (cd : Nat),
        s.lines[s.line_counter]? = some .putWelliesOn →
        run_iter_step s 0 = .cont s2 cd →
        cd = 0 ∧
        s2.wellies_stack = (s.line_counter, s.pos, s.direction) :: s.wellies_stack ∧
        s2.wellies_count = s.wellies_count + 1 ∧
        s2.line_counter = s.line_counter + 1 ∧
        s2.lines = s.lines) ∧
    (∀ (s : Program) (t : TurnDir) (ln : Nat) (w : Int) (m : Nat × Pos × Dir)
        (rest : List (Nat × Pos × Dir)),
        dictGet s.water s.pos = some w → 100 ≤ w → s.current_bucket = none →
        s.mode = .welliesLoop → s.wellies_count ≠ 0 → s.wellies_stack = m :: rest →
        eval_line s (.turn t) ln =
          .ok { s with pos := m.2.1, direction := m.2.2, wellies_stack := rest }
            (.jump m.1)) ∧
    (∀ (s : Program) (l : Instr) (s2 : Program) (target : Nat),
        s.lines[s.line_counter]? = some l → l ≠ .blank →
        run_line s l (s.line_counter + 1) = .ok s2 (.jump target) →
        run_iter_step s 0 = .cont { s2 with line_counter := target } 0 ∧
          s2.lines = s.lines) := by
  refine ⟨?_, ?_, ?_⟩
  · intro s s2 cd hl hstep
    rw [run_iter_step_normal hl (by decide)
      (run_line_putWelliesOn s (s.line_counter + 1))] at hstep
    obtain ⟨hp, hd, _, _, hwc, hws, _, hlns, hlc, _⟩ := pre_tick_frame s
    cases hstep
    refine ⟨rfl, ?_, ?_, ?_, ?_⟩
    · show (s.line_counter + 1 - 1, (pre_tick s).pos, (pre_tick s).direction) ::
        (pre_tick s).wellies_stack = _
      rw [hp, hd, hws, Nat.add_sub_cancel]
    · show (pre_tick s).wellies_count + 1 = _
      rw [hwc]
    · show (pre_tick s).line_counter + 1 = _
      rw [hlc]
    · show (pre_tick s).lines = _
      rw [hlns]
  · intro s t ln w m rest hw h100 hh hm hwc hs
    exact eval_line_turn_loop hw h100 hh hm hwc hs
  · intro s l s2 target hl hb hr
    exact ⟨run_iter_step_jump hl hb hr, (run_line_lines hr).1⟩

/-- Witness program for C10: a single "put wellies on" line. -/
def c10w : Program := Program.init [.putWelliesOn]

/-- The C10 witness state after the driver dispatches the open-wellies line. -/
def c10w_after : Program :=
  { Program.init [.putWelliesOn] with
    wellies_count := 1, wellies_stack := [(0, (0, 0), .N)], time := 1,
    line_counter := 1 }

theorem c10_marker_stores_own_line_witness :
    ((0 : Nat) = 0 ∧
      c10w_after.wellies_stack = (0, (0, 0), .N) :: c10w.wellies_stack ∧
      c10w_after.wellies_count = c10w.wellies_count + 1 ∧
      c10w_after.line_counter = c10w.line_counter + 1 ∧
      c10w_after.lines = c10w.lines) ∧
    eval_line c6w (.turn .right) 2 =
      .ok { c6w with pos := (2, 3), direction := .S, wellies_stack := [] }
        (.jump 0) ∧
    (run_iter_step c6w 0 = .cont { c6w_after with line_counter := 0 } 0 ∧
      c6w_after.lines = c6w.lines) :=
  ⟨c10_marker_stores_own_line.1 c10w c10w_after 0 (by decide) (by decide),
   c10_marker_stores_own_line.2.1 c6w .right 2 150 (0, (2, 3), .S) [] (by decide)
      (by decide) (by decide) (by decide) (by decide) (by decide),
   c10_marker_stores_own_line.2.2 c6w (.turn .left) c6w_after 0 (by decide)
      (by decide) (by decide)⟩

end LeakyBuckets
